import Mathlib

/-
Verification of the ecncrpty batch file-encryption engine.

The repository is a Node.js service: `server.js` exposes a `/process` route
that runs a Caesar-cipher transform over a batch of uploaded files using one
of three strategies (sequential, worker threads, child processes);
`crypto-worker.js` is the worker-thread shard loop and `crypto-process.js`
the child-process shard loop.  This file gives a shallow embedding of that
code and proves or refutes the specification's claims about it.

Modelling conventions:
- JS strings are lists of UTF-16 code units (`List Nat`); `charCodeAt`
  arithmetic is done in `Int`, JS `%` (truncated remainder) is `Int.tmod`,
  and `String.fromCharCode` applies ToUint16, i.e. `Int.emod` by 65536.
- The filesystem is a read map `String → Option (List Nat)`; `none` models a
  file whose `fs.readFile` rejects.  Writes are recorded as `(path, content)`
  pairs.  `Date.now()` values and the random worker token are passed in as
  parameters, since only their values flow into output names and timings.
- A rejected promise that escapes an executor is modelled as `Option.none`,
  and the surrounding route's try/catch turns it into a 500 response.
-/

namespace Ecncrpty

/-! ## Transform: `caesarCipher` (server.js lines 44-50, duplicated verbatim
in crypto-worker.js and crypto-process.js) -/

/-- The regex `/[a-zA-Z]/`: does a code unit match an ASCII letter? -/
def isAlphaCode (c : Nat) : Bool :=
  (65 ≤ c && c ≤ 90) || (97 ≤ c && c ≤ 122)

/-- The replacement callback of `caesarCipher`, applied to one code unit.
Non-letters are returned unchanged (the regex does not match them).
For a letter: `start = char <= 'Z' ? 65 : 97` (inlined below),
`actualShift = decrypt ? -shift : shift` (inlined below), and the result is
`String.fromCharCode(((code - start + actualShift + 26) % 26) + start)`,
where `%` is JS truncated remainder and `fromCharCode` wraps to a UTF-16
code unit. -/
def shiftChar (shift : Int) (decrypt : Bool) (c : Nat) : Nat :=
  if isAlphaCode c then
    (((((c : Int) - (if c ≤ 90 then 65 else 97) + (if decrypt then -shift else shift)
        + 26).tmod 26) + (if c ≤ 90 then 65 else 97))% 65536).toNat
  else c

/-- `caesarCipher(text, shift, decrypt)`: replace every ASCII letter of the
text by its shifted image, leaving all other code units in place. -/
def caesarCipher (text : List Nat) (shift : Int) (decrypt : Bool) : List Nat :=
  text.map (shiftChar shift decrypt)

/-! ### Round-trip behaviour of `shiftChar` -/

theorem shiftChar_enc_upper (s : Int) (c : Nat) (h1 : 65 ≤ c) (h2 : c ≤ 90) :
    shiftChar s false c = ((((c : Int) - 65 + s + 26).tmod 26 + 65)% 65536).toNat := by
  have ha : isAlphaCode c = true := by
    simp only [isAlphaCode, Bool.or_eq_true, Bool.and_eq_true, decide_eq_true_eq]
    omega
  unfold shiftChar
  rw [if_pos ha, if_pos h2, if_neg (by decide : ¬ ((false : Bool) = true))]

theorem shiftChar_dec_upper (s : Int) (c : Nat) (h1 : 65 ≤ c) (h2 : c ≤ 90) :
    shiftChar s true c = ((((c : Int) - 65 + -s + 26).tmod 26 + 65)% 65536).toNat := by
  have ha : isAlphaCode c = true := by
    simp only [isAlphaCode, Bool.or_eq_true, Bool.and_eq_true, decide_eq_true_eq]
    omega
  unfold shiftChar
  rw [if_pos ha, if_pos h2, if_pos (by decide : ((true : Bool) = true))]

theorem shiftChar_enc_lower (s : Int) (c : Nat) (h1 : 97 ≤ c) (h2 : c ≤ 122) :
    shiftChar s false c = ((((c : Int) - 97 + s + 26).tmod 26 + 97)% 65536).toNat := by
  have ha : isAlphaCode c = true := by
    simp only [isAlphaCode, Bool.or_eq_true, Bool.and_eq_true, decide_eq_true_eq]
    omega
  unfold shiftChar
  rw [if_pos ha, if_neg (by omega : ¬ c ≤ 90), if_neg (by decide : ¬ ((false : Bool) = true))]

theorem shiftChar_dec_lower (s : Int) (c : Nat) (h1 : 97 ≤ c) (h2 : c ≤ 122) :
    shiftChar s true c = ((((c : Int) - 97 + -s + 26).tmod 26 + 97)% 65536).toNat := by
  have ha : isAlphaCode c = true := by
    simp only [isAlphaCode, Bool.or_eq_true, Bool.and_eq_true, decide_eq_true_eq]
    omega
  unfold shiftChar
  rw [if_pos ha, if_neg (by omega : ¬ c ≤ 90), if_pos (by decide : ((true : Bool) = true))]

/-- For shifts in `[-26, 26]` the argument of JS `%` is non-negative in both
directions, so decrypting undoes encrypting, one code unit at a time. -/
theorem shiftChar_roundtrip (c : Nat) (s : Int) (h1 : -26 ≤ s) (h2 : s ≤ 26) :
    shiftChar s true (shiftChar s false c) = c := by
  by_cases ha : isAlphaCode c
  · have hc : (65 ≤ c ∧ c ≤ 90) ∨ (97 ≤ c ∧ c ≤ 122) := by
      simp only [isAlphaCode, Bool.or_eq_true, Bool.and_eq_true,
        decide_eq_true_eq] at ha
      exact ha
    rcases hc with hU | hL
    · rw [shiftChar_enc_upper s c hU.1 hU.2]
      set x : Int := (c : Int) - 65 + s + 26 with hx
      rw [Int.tmod_eq_emod (by omega) (by norm_num)]
      have he0 : 0 ≤ x % 26 := Int.emod_nonneg _ (by norm_num)
      have he26 : x % 26 < 26 := Int.emod_lt_of_pos _ (by norm_num)
      rw [show (x % 26 + 65) % 65536 = x % 26 + 65 from
        Int.emod_eq_of_lt (by omega) (by omega)]
      rw [shiftChar_dec_upper s _ (by omega) (by omega)]
      rw [show (((x % 26 + 65).toNat : Int)) = x % 26 + 65 from by omega]
      rw [Int.tmod_eq_emod (by omega) (by norm_num)]
      omega
    · rw [shiftChar_enc_lower s c hL.1 hL.2]
      set x : Int := (c : Int) - 97 + s + 26 with hx
      rw [Int.tmod_eq_emod (by omega) (by norm_num)]
      have he0 : 0 ≤ x % 26 := Int.emod_nonneg _ (by norm_num)
      have he26 : x % 26 < 26 := Int.emod_lt_of_pos _ (by norm_num)
      rw [show (x % 26 + 97) % 65536 = x % 26 + 97 from
        Int.emod_eq_of_lt (by omega) (by omega)]
      rw [shiftChar_dec_lower s _ (by omega) (by omega)]
      rw [show (((x % 26 + 97).toNat : Int)) = x % 26 + 97 from by omega]
      rw [Int.tmod_eq_emod (by omega) (by norm_num)]
      omega
  · unfold shiftChar
    rw [if_neg ha, if_neg ha]

/-! ## Data model -/

/-- One entry of the `files` array sent to `/process` (the fields the
processing code reads: `originalname` and `path`). -/
structure UploadedFile where
  originalname : String
  path : String
deriving DecidableEq, Repr

/-- The result record pushed by `processSequentially` (server.js lines
163-167): `{originalName, processedPath, size}`. -/
structure FileResult where
  originalName : String
  processedPath : String
  size : Nat
deriving DecidableEq, Repr

/-- The result record pushed by the shard loops of crypto-worker.js and
crypto-process.js (lines 28-33): `{originalName, processedPath, size,
operation}`. -/
structure WorkerResult where
  originalName : String
  processedPath : String
  size : Nat
  operation : String
deriving DecidableEq, Repr

/-- The readable filesystem: `fs.readFile(path, 'utf8')` either resolves with
the content or rejects (`none`). -/
abbrev Fs := String → Option (List Nat)

/-! ## Sequential executor: `processSequentially` (server.js lines 149-180) -/

/-- Output name used by `processSequentially`:
`path.join('processed', operation + '_' + Date.now() + '_' + originalname)`. -/
def seqOutputPath (operation : String) (now : Nat) (name : String) : String :=
  "processed/" ++ operation ++ "_" ++ toString now ++ "_" ++ name

/-- The `for (const file of files)` loop of `processSequentially`.  Per file:
read, transform, write, push a `FileResult`; a per-file try/catch logs
`console.error` and continues with the next file (nothing is pushed for the
failed file).  Returns (results, writes performed, console-error log). -/
def seqGo (fs : Fs) (operation : String) (shift : Int) (now : Nat) :
    List UploadedFile → List FileResult × List (String × List Nat) × List String
  | [] => ([], [], [])
  | f :: rest =>
    let prev := seqGo fs operation shift now rest
    match fs f.path with
    | some content =>
      (⟨f.originalname, seqOutputPath operation now f.originalname, content.length⟩ :: prev.1,
       (seqOutputPath operation now f.originalname,
        caesarCipher content shift (operation == "decrypt")) :: prev.2.1,
       prev.2.2)
    | none => (prev.1, prev.2.1, "Error processing file" :: prev.2.2)

/-- The value returned by `processSequentially`:
`{results, processingTime, method}`. -/
structure SeqOutcome where
  results : List FileResult
  processingTime : Nat
  method : String
deriving Repr

/-- A run of `processSequentially`, with its observable side effects: the
returned outcome, the files written, and the `console.error` log.  `now` is
the `Date.now()` value used in output names; `startTime`/`endTime` are the
`Date.now()` readings around the loop. -/
structure SeqRun where
  outcome : SeqOutcome
  writes : List (String × List Nat)
  consoleErrors : List String
deriving Repr

def processSequentially (fs : Fs) (files : List UploadedFile) (operation : String)
    (shift : Int) (now startTime endTime : Nat) : SeqRun :=
  let (rs, ws, es) := seqGo fs operation shift now files
  { outcome := { results := rs, processingTime := endTime - startTime,
                 method := "Sequential" },
    writes := ws, consoleErrors := es }

/-! ## Partitioner: the slice loop of `processWithWorkerThreads` (server.js
lines 61-63) and `processWithChildProcesses` (lines 103-105):
`for i in [0, k): shard := files.slice(i*size, (i+1)*size); if empty, break`. -/

def makeShards {α : Type} (files : List α) (size : Nat) : Nat → List (List α)
  | 0 => []
  | k + 1 =>
    if (files.take size).isEmpty then []
    else files.take size :: makeShards (files.drop size) size k

/-- `Math.ceil(length / numWorkers)` on naturals (`numWorkers ≥ 1`). -/
def ceilDiv (length numWorkers : Nat) : Nat :=
  (length + numWorkers - 1) / numWorkers

/-! ## Shard loop of crypto-worker.js and crypto-process.js (their
`processFiles`, identical in both files lines 14-35 resp. 13-36) -/

/-- Output name used inside a worker/child:
`path.basename(path.join('processed', operation + '_' + Date.now() + '_' +
token + '_' + originalname))`. -/
def workerOutputPath (operation : String) (now : Nat) (tok : String)
    (name : String) : String :=
  operation ++ "_" ++ toString now ++ "_" ++ tok ++ "_" ++ name

/-- The `for (const file of files)` loop shared by crypto-worker.js and
crypto-process.js.  The whole loop sits inside one try/catch, so the first
failing read aborts the remaining jobs of the shard: the first component is
`none` in that case (results discarded), `some results` otherwise.  The
second component records the files actually written before any abort. -/
def shardGo (fs : Fs) (operation : String) (shift : Int) (now : Nat) (tok : String) :
    List UploadedFile → Option (List WorkerResult) × List (String × List Nat)
  | [] => (some [], [])
  | f :: rest =>
    match fs f.path with
    | none => (none, [])
    | some content =>
      let prev := shardGo fs operation shift now tok rest
      (prev.1.map (fun rs =>
        ⟨f.originalname, workerOutputPath operation now tok f.originalname,
         content.length, operation⟩ :: rs),
       (workerOutputPath operation now tok f.originalname,
        caesarCipher content shift (operation == "decrypt")) :: prev.2)

/-- A worker thread's message: on success the shard's result list, on any
error `postMessage([])` (crypto-worker.js lines 37-40). -/
def workerRun (fs : Fs) (operation : String) (shift : Int) (now : Nat) (tok : String)
    (shard : List UploadedFile) : List WorkerResult :=
  ((shardGo fs operation shift now tok shard).1).getD []

/-- A child process's contribution: on success the shard's result list
(printed as JSON, exit 0); on any error it prints `[]` but exits with code 1,
which the parent turns into a rejection — modelled as `none`
(crypto-process.js lines 37-41, server.js lines 118-129). -/
def childRunShard (fs : Fs) (operation : String) (shift : Int) (now : Nat) (tok : String)
    (shard : List UploadedFile) : Option (List WorkerResult) :=
  (shardGo fs operation shift now tok shard).1

/-! ## Parallel executors (server.js lines 53-92 and 95-146) -/

/-- The outcome shape returned by both parallel executors:
`{results, processingTime, method}`. -/
structure ParOutcome where
  results : List WorkerResult
  processingTime : Nat
  method : String
deriving Repr

/-- `processWithWorkerThreads`: `numWorkers = min(cpus, files.length)`,
`filesPerWorker = ceil(files.length / numWorkers)`, slice the shards, run one
worker per shard, and push each worker's message into `results`.  Message
arrival order is scheduler-dependent; the merge is modelled in shard order
(one admissible interleaving — the claims below compare only multisets). -/
def processWithWorkerThreads (fs : Fs) (cpus : Nat) (files : List UploadedFile)
    (operation : String) (shift : Int) (now : Nat) (tok : String)
    (startTime endTime : Nat) : ParOutcome :=
  let numWorkers := min cpus files.length
  let filesPerWorker := ceilDiv files.length numWorkers
  let shards := makeShards files filesPerWorker numWorkers
  { results := (shards.map (workerRun fs operation shift now tok)).flatten,
    processingTime := endTime - startTime,
    method := "Worker Threads" }

/-- `Promise.all` over the per-shard child promises: the joined value when
every child resolved, `none` as soon as any child rejected. -/
def collectShards (g : List UploadedFile → Option (List WorkerResult)) :
    List (List UploadedFile) → Option (List (List WorkerResult))
  | [] => some []
  | sh :: rest =>
    match g sh with
    | none => none
    | some rs => (collectShards g rest).map (fun rss => rs :: rss)

/-- `processWithChildProcesses`: identical partitioning; each shard runs in a
child process.  A child exiting non-zero rejects its promise, so `Promise.all`
rejects and the whole call throws — modelled as `none`. -/
def processWithChildProcesses (fs : Fs) (cpus : Nat) (files : List UploadedFile)
    (operation : String) (shift : Int) (now : Nat) (tok : String)
    (startTime endTime : Nat) : Option ParOutcome :=
  let numProcesses := min cpus files.length
  let filesPerProcess := ceilDiv files.length numProcesses
  let shards := makeShards files filesPerProcess numProcesses
  match collectShards (childRunShard fs operation shift now tok) shards with
  | some rss => some { results := rss.flatten,
                       processingTime := endTime - startTime,
                       method := "Child Processes" }
  | none => none

/-! ## The `/process` route (server.js lines 206-248) -/

/-- The body of a successful `/process` response (one of the three outcome
shapes, spread into the JSON reply). -/
inductive ProcessResult where
  | wt (out : ParOutcome)
  | cp (out : ParOutcome)
  | seq (run : SeqRun)
deriving Repr

/-- The HTTP response of the `/process` route: 200 with an outcome, 400 with
a message, or 500 with a message (the route's catch-all). -/
inductive RouteResponse where
  | ok (res : ProcessResult)
  | badRequest (message : String)
  | serverError (message : String)
deriving Repr

/-- The `/process` handler: reject an empty `files` array with 400
`'No files provided'`; dispatch on `method` (the `switch`), defaulting to 400
`'Invalid processing method'`; a rejection escaping an executor is caught and
answered with 500 `'Error processing files'`. -/
def processRoute (fs : Fs) (cpus : Nat) (files : List UploadedFile)
    (operation method : String) (shift : Int) (now : Nat) (tok : String)
    (startTime endTime : Nat) : RouteResponse :=
  if files.length = 0 then .badRequest "No files provided"
  else if method = "multithreading" then
    .ok (.wt (processWithWorkerThreads fs cpus files operation shift now tok startTime endTime))
  else if method = "multiprocessing" then
    match processWithChildProcesses fs cpus files operation shift now tok startTime endTime with
    | some out => .ok (.cp out)
    | none => .serverError "Error processing files"
  else if method = "sequential" then
    .ok (.seq (processSequentially fs files operation shift now startTime endTime))
  else .badRequest "Invalid processing method"

/-! ## Helper lemmas -/

/-- The transform rewrites each code unit in place, so it never changes the
length of a string. -/
theorem caesarCipher_length (text : List Nat) (shift : Int) (decrypt : Bool) :
    (caesarCipher text shift decrypt).length = text.length :=
  List.length_map text (shiftChar shift decrypt)

/-- Round trip lifted to whole strings, for shifts in `[-26, 26]`. -/
theorem caesarCipher_roundtrip (x : List Nat) (s : Int) (h1 : -26 ≤ s) (h2 : s ≤ 26) :
    caesarCipher (caesarCipher x s false) s true = x := by
  unfold caesarCipher
  rw [List.map_map]
  have : (shiftChar s true ∘ shiftChar s false) = id := by
    funext c
    exact shiftChar_roundtrip c s h1 h2
  rw [this, List.map_id]

/-- As long as enough slices are taken (`k * size` covers the list), the
shards concatenate back to the original list. -/
theorem makeShards_flatten {α : Type} (size : Nat) :
    ∀ (k : Nat) (files : List α), files.length ≤ k * size →
      (makeShards files size k).flatten = files := by
  intro k
  induction k with
  | zero =>
    intro files h
    have : files = [] := List.eq_nil_of_length_eq_zero (by omega)
    subst this
    rfl
  | succ k ih =>
    intro files h
    by_cases he : (files.take size).isEmpty
    · have htake : files.take size = [] := List.isEmpty_iff.mp he
      have hfe : files = [] := by
        rcases List.take_eq_nil_iff.mp htake with hs | hf
        · subst hs
          exact List.eq_nil_of_length_eq_zero (by omega)
        · exact hf
      subst hfe
      simp [makeShards]
    · have hks : (k + 1) * size = k * size + size := by ring
      have hlen : (files.drop size).length ≤ k * size := by
        simp only [List.length_drop]
        omega
      rw [makeShards, if_neg he, List.flatten_cons, ih (files.drop size) hlen,
        List.take_append_drop]

/-- `k * ceil(L / k) ≥ L` for `k ≥ 1`: the slices of the partitioner cover
the whole job list. -/
theorem le_mul_ceilDiv (L k : Nat) (hk : 1 ≤ k) : L ≤ k * ceilDiv L k := by
  unfold ceilDiv
  have h := Nat.div_add_mod (L + k - 1) k
  have hr : (L + k - 1) % k < k := Nat.mod_lt _ (by omega)
  generalize hm : k * ((L + k - 1) / k) = m at h ⊢
  omega

/-- The originalName column of the sequential results: exactly the readable
files, in submission order. -/
theorem seqGo_originalNames (fs : Fs) (op : String) (shift : Int) (now : Nat) :
    ∀ files : List UploadedFile,
      ((seqGo fs op shift now files).1).map FileResult.originalName
        = (files.filter (fun f => (fs f.path).isSome)).map UploadedFile.originalname := by
  intro files
  induction files with
  | nil => rfl
  | cons f rest ih =>
    cases hread : fs f.path with
    | some content => simp [seqGo, hread, List.filter_cons, ih]
    | none => simp [seqGo, hread, List.filter_cons, ih]

/-- When every file is readable, the sequential loop produces one result per
file, in order, whose `size` is the source content's length. -/
theorem seqGo_all_readable (fs : Fs) (op : String) (shift : Int) (now : Nat) :
    ∀ files : List UploadedFile, (∀ f ∈ files, (fs f.path).isSome) →
      (seqGo fs op shift now files).1 = files.map (fun f =>
        ⟨f.originalname, seqOutputPath op now f.originalname,
         ((fs f.path).getD []).length⟩) := by
  intro files
  induction files with
  | nil => intro _; rfl
  | cons f rest ih =>
    intro hall
    have hf : (fs f.path).isSome := hall f (List.mem_cons_self f rest)
    rcases Option.isSome_iff_exists.mp hf with ⟨content, hread⟩
    simp [seqGo, hread, ih (fun g hg => hall g (List.mem_cons_of_mem f hg))]

/-- The sequential loop writes exactly the transform of each result's source:
the reported `size` column equals the written contents' lengths, pairwise. -/
theorem seqGo_sizes_eq_write_lengths (fs : Fs) (op : String) (shift : Int) (now : Nat) :
    ∀ files : List UploadedFile,
      ((seqGo fs op shift now files).1).map FileResult.size
        = ((seqGo fs op shift now files).2.1).map (fun w => w.2.length) := by
  intro files
  induction files with
  | nil => rfl
  | cons f rest ih =>
    cases hread : fs f.path with
    | some content => simp [seqGo, hread, caesarCipher_length, ih]
    | none => simp [seqGo, hread, ih]

/-- A shard whose files are all readable yields its full result list. -/
theorem shardGo_all_readable (fs : Fs) (op : String) (shift : Int) (now : Nat)
    (tok : String) :
    ∀ shard : List UploadedFile, (∀ f ∈ shard, (fs f.path).isSome) →
      (shardGo fs op shift now tok shard).1 = some (shard.map (fun f =>
        ⟨f.originalname, workerOutputPath op now tok f.originalname,
         ((fs f.path).getD []).length, op⟩)) := by
  intro shard
  induction shard with
  | nil => intro _; rfl
  | cons f rest ih =>
    intro hall
    have hf : (fs f.path).isSome := hall f (List.mem_cons_self f rest)
    rcases Option.isSome_iff_exists.mp hf with ⟨content, hread⟩
    simp [shardGo, hread, ih (fun g hg => hall g (List.mem_cons_of_mem f hg))]

/-- A shard containing any unreadable file makes the whole shard loop throw:
its try/catch produces no result list. -/
theorem shardGo_fails (fs : Fs) (op : String) (shift : Int) (now : Nat)
    (tok : String) :
    ∀ shard : List UploadedFile, (∃ f ∈ shard, fs f.path = none) →
      (shardGo fs op shift now tok shard).1 = none := by
  intro shard
  induction shard with
  | nil => intro h; rcases h with ⟨f, hf, _⟩; cases hf
  | cons f rest ih =>
    intro h
    cases hread : fs f.path with
    | none => simp [shardGo, hread]
    | some content =>
      rcases h with ⟨g, hg, hgnone⟩
      rcases List.mem_cons.mp hg with rfl | hgr
      · rw [hread] at hgnone; cases hgnone
      · simp [shardGo, hread, ih ⟨g, hgr, hgnone⟩]

/-- Merging all-readable shards gives one result per underlying file. -/
theorem flatten_workerRun (fs : Fs) (op : String) (shift : Int) (now : Nat)
    (tok : String) :
    ∀ shards : List (List UploadedFile),
      (∀ sh ∈ shards, ∀ f ∈ sh, (fs f.path).isSome) →
      (shards.map (workerRun fs op shift now tok)).flatten
        = shards.flatten.map (fun f =>
            ⟨f.originalname, workerOutputPath op now tok f.originalname,
             ((fs f.path).getD []).length, op⟩) := by
  intro shards
  induction shards with
  | nil => intro _; rfl
  | cons sh rest ih =>
    intro hall
    have hsh := shardGo_all_readable fs op shift now tok sh
      (hall sh (List.mem_cons_self sh rest))
    simp [workerRun, hsh, ih (fun t ht f hf => hall t (List.mem_cons_of_mem sh ht) f hf)]

/-- `Promise.all` resolves when every child resolves. -/
theorem collectShards_all_some (g : List UploadedFile → Option (List WorkerResult))
    (h : List UploadedFile → List WorkerResult) :
    ∀ shards : List (List UploadedFile), (∀ sh ∈ shards, g sh = some (h sh)) →
      collectShards g shards = some (shards.map h) := by
  intro shards
  induction shards with
  | nil => intro _; rfl
  | cons sh rest ih =>
    intro hall
    simp [collectShards, hall sh (List.mem_cons_self sh rest),
      ih (fun t ht => hall t (List.mem_cons_of_mem sh ht))]

/-- `Promise.all` rejects as soon as any child rejects. -/
theorem collectShards_fails (g : List UploadedFile → Option (List WorkerResult)) :
    ∀ shards : List (List UploadedFile), (∃ sh ∈ shards, g sh = none) →
      collectShards g shards = none := by
  intro shards
  induction shards with
  | nil => intro h; rcases h with ⟨sh, hsh, _⟩; cases hsh
  | cons sh rest ih =>
    intro h
    cases hg : g sh with
    | none => simp [collectShards, hg]
    | some rs =>
      rcases h with ⟨t, ht, htnone⟩
      rcases List.mem_cons.mp ht with rfl | htr
      · rw [hg] at htnone; cases htnone
      · simp [collectShards, hg, ih ⟨t, htr, htnone⟩]

/-! ## Concrete fixtures for the scenario claims -/

/-- `"Hello"` as UTF-16 code units. -/
def hello : List Nat := [72, 101, 108, 108, 111]

/-- `"Khoor"` as UTF-16 code units. -/
def khoor : List Nat := [75, 104, 111, 111, 114]

/-- Five uploaded files. -/
def files5 : List UploadedFile :=
  [⟨"f1.txt", "uploads/p1"⟩, ⟨"f2.txt", "uploads/p2"⟩, ⟨"f3.txt", "uploads/p3"⟩,
   ⟨"f4.txt", "uploads/p4"⟩, ⟨"f5.txt", "uploads/p5"⟩]

/-- Two uploaded files. -/
def files2 : List UploadedFile := [⟨"f1.txt", "uploads/p1"⟩, ⟨"f2.txt", "uploads/p2"⟩]

/-- A single uploaded file. -/
def files1 : List UploadedFile := [⟨"f2.txt", "uploads/p2"⟩]

/-- A filesystem on which every read succeeds with content `"Hello"`. -/
def fsAll : Fs := fun _ => some hello

/-- A filesystem on which `uploads/p1` is unreadable and every other read
succeeds with content `"Hello"`. -/
def fsBad1 : Fs := fun p => if p = "uploads/p1" then none else some hello

/-! ## Claims -/

/-- Claim C1, counterexample: the code adds 26 once instead of reducing the
shift modulo 26, so at shift 27 the decryption of `"a"` computes
`(-1) % 26 = -1` (JS truncated remainder) and yields code unit 96 (a
backquote): encrypt-then-decrypt of `"z"` with shift 27 does not return
`"z"`. -/
theorem c1_roundtrip_fails_at_shift_27 :
    caesarCipher (caesarCipher [122] 27 false) 27 true ≠ [122] := by decide

/-- Claim C1 (amended): for every input string and every shift in
`[-26, 26]`, applying the Caesar transform with decrypt=false and then with
decrypt=true returns the input; within this range the single `+ 26` keeps
the argument of JS `%` non-negative, so the effective shift normalizes into
`[0, 26)`.  Outside this range the round trip can fail, since the code does
not reduce the shift modulo 26. -/
theorem c1_roundtrip_bounded_shift (x : List Nat) (s : Int)
    (h1 : -26 ≤ s) (h2 : s ≤ 26) :
    caesarCipher (caesarCipher x s false) s true = x :=
  caesarCipher_roundtrip x s h1 h2

/-- Witness for C1: the round trip at `"Hello"` with shift 3. -/
theorem c1_roundtrip_bounded_shift_witness :
    caesarCipher (caesarCipher hello 3 false) 3 true = hello :=
  c1_roundtrip_bounded_shift hello 3 (by decide) (by decide)

/-- Claim C2, counterexample: submit two jobs of which the first is
unreadable; the sequential outcome's results mention only the second job and
the returned outcome (`{results, processingTime, method}`) carries no failure
list at all, so the first job appears zero times — it is silently dropped. -/
theorem c2_job_silently_dropped :
    ((processSequentially fsBad1 files2 "encrypt" 3 0 0 0).outcome.results).map
        FileResult.originalName = ["f2.txt"]
      ∧ (processSequentially fsBad1 files2 "encrypt" 3 0 0 0).consoleErrors
          = ["Error processing file"] := by decide

/-- Claim C2 (amended): a submitted job appears in the outcome exactly once
only if it is processed successfully; failed jobs produce no entry of any
kind.  Sequentially, the results column lists exactly the readable files in
submission order (an unreadable file is only logged to the console); a
thread-pool worker returns one result per shard file when the whole shard is
readable and an empty list otherwise. -/
theorem c2_readable_jobs_exactly_once (fs : Fs) (files : List UploadedFile)
    (op : String) (shift : Int) (now startTime endTime : Nat) (tok : String)
    (shard : List UploadedFile) :
    ((processSequentially fs files op shift now startTime endTime).outcome.results).map
        FileResult.originalName
      = (files.filter (fun f => (fs f.path).isSome)).map UploadedFile.originalname
    ∧ (workerRun fs op shift now tok shard).map WorkerResult.originalName
      = (if shard.all (fun f => (fs f.path).isSome)
         then shard.map UploadedFile.originalname else []) := by
  constructor
  · simpa [processSequentially] using seqGo_originalNames fs op shift now files
  · by_cases hall : shard.all (fun f => (fs f.path).isSome)
    · rw [if_pos hall]
      have hev : ∀ f ∈ shard, (fs f.path).isSome := by
        intro f hf
        exact List.all_eq_true.mp hall f hf
      simp [workerRun, shardGo_all_readable fs op shift now tok shard hev]
    · rw [if_neg hall]
      have hex : ∃ f ∈ shard, fs f.path = none := by
        by_contra hno
        push_neg at hno
        exact hall (List.all_eq_true.mpr (fun f hf =>
          Option.ne_none_iff_isSome.mp (hno f hf)))
      simp [workerRun, shardGo_fails fs op shift now tok shard hex]

/-- Claim C3, counterexample: two jobs, the first unreadable, one CPU.  The
same job list and parameters give a sequential outcome with the one-element
{originalName, byteSize} multiset `{("f2.txt", 5)}`, a worker-thread outcome
with the empty multiset (the single shard aborts wholesale), and no
child-process outcome at all (the call rejects) — the strategies are not
outcome-equivalent. -/
theorem c3_strategies_diverge_on_failure :
    ((processSequentially fsBad1 files2 "encrypt" 3 0 0 0).outcome.results).map
        (fun r => (r.originalName, r.size)) = [("f2.txt", 5)]
    ∧ ((processWithWorkerThreads fsBad1 1 files2 "encrypt" 3 0 "t" 0 0).results).map
        (fun r => (r.originalName, r.size)) = []
    ∧ processWithChildProcesses fsBad1 1 files2 "encrypt" 3 0 "t" 0 0 = none :=
  ⟨by decide, by decide, rfl⟩

/-- Claim C3 (amended): when every submitted file is readable (and the batch
and CPU count are non-empty), the three strategies agree: each produces one
entry per file whose {originalName, byteSize} projection is the file's name
and content length, so the multisets coincide (here even the order);
timestamps and name tokens may differ freely between strategies.  When some
file is unreadable the strategies diverge (see the counterexample). -/
theorem c3_strategy_equivalence_when_all_readable (fs : Fs)
    (files : List UploadedFile) (op : String) (shift : Int) (cpus : Nat)
    (now1 st1 et1 now2 st2 et2 now3 st3 et3 : Nat) (tok2 tok3 : String)
    (hall : ∀ f ∈ files, (fs f.path).isSome)
    (hcpus : 1 ≤ cpus) (hfiles : 1 ≤ files.length) :
    ((processSequentially fs files op shift now1 st1 et1).outcome.results).map
        (fun r => (r.originalName, r.size))
      = files.map (fun f => (f.originalname, ((fs f.path).getD []).length))
    ∧ ((processWithWorkerThreads fs cpus files op shift now2 tok2 st2 et2).results).map
        (fun r => (r.originalName, r.size))
      = files.map (fun f => (f.originalname, ((fs f.path).getD []).length))
    ∧ ∃ out, processWithChildProcesses fs cpus files op shift now3 tok3 st3 et3 = some out
        ∧ (out.results).map (fun r => (r.originalName, r.size))
          = files.map (fun f => (f.originalname, ((fs f.path).getD []).length)) := by
  have hk : 1 ≤ min cpus files.length := le_min hcpus hfiles
  have hcover : files.length ≤ min cpus files.length
      * ceilDiv files.length (min cpus files.length) :=
    le_mul_ceilDiv files.length (min cpus files.length) hk
  have hflat : (makeShards files (ceilDiv files.length (min cpus files.length))
      (min cpus files.length)).flatten = files :=
    makeShards_flatten _ _ files hcover
  have hshard : ∀ sh ∈ makeShards files (ceilDiv files.length (min cpus files.length))
      (min cpus files.length), ∀ f ∈ sh, (fs f.path).isSome := by
    intro sh hsh f hf
    exact hall f (hflat ▸ List.mem_flatten.mpr ⟨sh, hsh, hf⟩)
  refine ⟨?_, ?_, ?_⟩
  · rw [processSequentially]
    simp only [seqGo_all_readable fs op shift now1 files hall, List.map_map]
    rfl
  · rw [processWithWorkerThreads]
    simp only [flatten_workerRun fs op shift now2 tok2 _ hshard, hflat, List.map_map]
    rfl
  · have hcollect := collectShards_all_some (childRunShard fs op shift now3 tok3)
      (fun (sh : List UploadedFile) => sh.map (fun f =>
        (⟨f.originalname, workerOutputPath op now3 tok3 f.originalname,
          ((fs f.path).getD []).length, op⟩ : WorkerResult)))
      (makeShards files (ceilDiv files.length (min cpus files.length))
        (min cpus files.length))
      (fun sh hsh => by
        simpa [childRunShard] using
          shardGo_all_readable fs op shift now3 tok3 sh (hshard sh hsh))
    rw [processWithChildProcesses]
    simp only [hcollect]
    refine ⟨_, rfl, ?_⟩
    simp only [← List.map_flatten, hflat, List.map_map]
    rfl

/-- Witness for C3: one readable file, one CPU. -/
theorem c3_strategy_equivalence_when_all_readable_witness :
    ((processSequentially fsAll files1 "encrypt" 3 0 0 0).outcome.results).map
        (fun r => (r.originalName, r.size))
      = files1.map (fun f => (f.originalname, ((fsAll f.path).getD []).length))
    ∧ ((processWithWorkerThreads fsAll 1 files1 "encrypt" 3 0 "t" 0 0).results).map
        (fun r => (r.originalName, r.size))
      = files1.map (fun f => (f.originalname, ((fsAll f.path).getD []).length))
    ∧ ∃ out, processWithChildProcesses fsAll 1 files1 "encrypt" 3 0 "t" 0 0 = some out
        ∧ (out.results).map (fun r => (r.originalName, r.size))
          = files1.map (fun f => (f.originalname, ((fsAll f.path).getD []).length)) :=
  c3_strategy_equivalence_when_all_readable fsAll files1
    "encrypt" 3 1 0 0 0 0 0 0 0 0 0 "t" "t" (by decide) (by decide) (by decide)

/-- Claim C4, counterexample: a shard of two jobs whose first source is
unreadable and whose second is readable.  The worker's message is the empty
list — no failure entry for the first job, no result for the readable second
job — and the thread-pool batch outcome is likewise empty rather than
`{failure f1, result f2}`. -/
theorem c4_one_bad_file_aborts_shard :
    workerRun fsBad1 "encrypt" 3 0 "t" files2 = []
    ∧ (processWithWorkerThreads fsBad1 1 files2 "encrypt" 3 0 "t" 0 0).results = [] := by
  decide

/-- Claim C4 (amended): on an I/O failure no Failure entry is ever appended.
The sequential loop does continue past a failed job (logging to the console
and producing the same results as without that job), but a worker's shard
loop sits in a single try/catch: a failing first job makes the whole shard
return the empty message, dropping the remaining jobs' results as well. -/
theorem c4_failure_handling (fs : Fs) (op : String) (shift : Int)
    (now startTime endTime : Nat) (tok : String) (f : UploadedFile)
    (rest : List UploadedFile) (hbad : fs f.path = none) :
    (processSequentially fs (f :: rest) op shift now startTime endTime).outcome.results
      = (processSequentially fs rest op shift now startTime endTime).outcome.results
    ∧ (processSequentially fs (f :: rest) op shift now startTime endTime).consoleErrors
      = "Error processing file"
        :: (processSequentially fs rest op shift now startTime endTime).consoleErrors
    ∧ workerRun fs op shift now tok (f :: rest) = [] := by
  refine ⟨?_, ?_, ?_⟩
  · simp [processSequentially, seqGo, hbad]
  · simp [processSequentially, seqGo, hbad]
  · simp [workerRun, shardGo, hbad]

/-- Witness for C4: the unreadable first file of `files2` under `fsBad1`. -/
theorem c4_failure_handling_witness :
    (processSequentially fsBad1 files2 "encrypt" 3 0 0 0).outcome.results
      = (processSequentially fsBad1 files1 "encrypt" 3 0 0 0).outcome.results
    ∧ (processSequentially fsBad1 files2 "encrypt" 3 0 0 0).consoleErrors
      = "Error processing file"
        :: (processSequentially fsBad1 files1 "encrypt" 3 0 0 0).consoleErrors
    ∧ workerRun fsBad1 "encrypt" 3 0 "t" files2 = [] :=
  c4_failure_handling fsBad1 "encrypt" 3 0 0 0 "t" ⟨"f1.txt", "uploads/p1"⟩
    [⟨"f2.txt", "uploads/p2"⟩] (by decide)

/-- Claim C5, counterexample: for 5 files on a 4-core host the code computes
`filesPerWorker = ceil(5/4) = 2` and slices shards of sizes `[2, 2, 1]` (the
fourth slice is empty and the loop breaks), not `[2, 1, 1, 1]`. -/
theorem c5_shard_sizes_not_as_claimed :
    (makeShards files5 (ceilDiv files5.length (min 4 files5.length))
        (min 4 files5.length)).map List.length ≠ [2, 1, 1, 1] := by decide

/-- Claim C5 (amended): for 5 submitted files with the threadpool strategy on
a 4-core host, the computed worker count is `min(4, 5) = 4`, but ceiling
sizing yields three dispatched shards of sizes `[2, 2, 1]`; the batch yields
5 results, no failure entries exist, and the elapsed time is a non-negative
integer. -/
theorem c5_threadpool_scenario :
    min 4 files5.length = 4
    ∧ (makeShards files5 (ceilDiv files5.length (min 4 files5.length))
        (min 4 files5.length)).map List.length = [2, 2, 1]
    ∧ (processWithWorkerThreads fsAll 4 files5 "encrypt" 3 0 "t" 0 0).results.length = 5
    ∧ 0 ≤ (processWithWorkerThreads fsAll 4 files5 "encrypt" 3 0 "t" 0 0).processingTime := by
  decide

/-- Claim C6 (confirmed): for every job list and every worker count `K ≥ 1`,
the ceiling-sized contiguous slices (empty trailing slices dropped) have
lengths summing to the job count, and concatenating the shards in order
reconstructs the job list — no job duplicated, none omitted. -/
theorem c6_partition_complete (jobs : List UploadedFile) (k : Nat) (hk : 1 ≤ k) :
    ((makeShards jobs (ceilDiv jobs.length k) k).map List.length).sum = jobs.length
    ∧ (makeShards jobs (ceilDiv jobs.length k) k).flatten = jobs := by
  have hflat : (makeShards jobs (ceilDiv jobs.length k) k).flatten = jobs :=
    makeShards_flatten _ k jobs (le_mul_ceilDiv jobs.length k hk)
  refine ⟨?_, hflat⟩
  rw [← List.length_flatten, hflat]

/-- Witness for C6: five jobs split across two workers. -/
theorem c6_partition_complete_witness :
    ((makeShards files5 (ceilDiv files5.length 2) 2).map List.length).sum = files5.length
    ∧ (makeShards files5 (ceilDiv files5.length 2) 2).flatten = files5 :=
  c6_partition_complete files5 2 (by decide)

/-- Claim C7, counterexample: one unreadable file under the multiprocessing
strategy.  The child exits with code 1, its promise rejects, and the route
answers 500 `'Error processing files'` — no `BatchOutcome` is returned and no
failure entries are recorded for the shard's jobs. -/
theorem c7_child_failure_aborts_batch :
    processWithChildProcesses fsBad1 1 files2 "encrypt" 3 0 "t" 0 0 = none
    ∧ processRoute fsBad1 1 files2 "encrypt" "multiprocessing" 3 0 "t" 0 0
      = .serverError "Error processing files" :=
  ⟨rfl, rfl⟩

/-- Claim C7 (amended): when any submitted file is unreadable, the child
process running its shard exits non-zero, `Promise.all` rejects, the executor
produces no outcome at all, and the route's catch-all answers the caller with
500 `'Error processing files'`; the rest of the batch is abandoned rather
than reported. -/
theorem c7_child_failure_rejects_whole_batch (fs : Fs) (cpus : Nat)
    (files : List UploadedFile) (op : String) (shift : Int)
    (now startTime endTime : Nat) (tok : String)
    (hbad : ∃ f ∈ files, fs f.path = none) (hcpus : 1 ≤ cpus) :
    processWithChildProcesses fs cpus files op shift now tok startTime endTime = none
    ∧ processRoute fs cpus files op "multiprocessing" shift now tok startTime endTime
      = .serverError "Error processing files" := by
  rcases hbad with ⟨f, hf, hfnone⟩
  have hfiles : 1 ≤ files.length := List.length_pos.mpr (by rintro rfl; cases hf)
  have hk : 1 ≤ min cpus files.length := le_min hcpus hfiles
  have hflat : (makeShards files (ceilDiv files.length (min cpus files.length))
      (min cpus files.length)).flatten = files :=
    makeShards_flatten _ _ files
      (le_mul_ceilDiv files.length (min cpus files.length) hk)
  rcases List.mem_flatten.mp (hflat ▸ hf) with ⟨sh, hsh, hfsh⟩
  have hshfail : childRunShard fs op shift now tok sh = none :=
    shardGo_fails fs op shift now tok sh ⟨f, hfsh, hfnone⟩
  have hnone : processWithChildProcesses fs cpus files op shift now tok startTime endTime
      = none := by
    rw [processWithChildProcesses]
    simp only [collectShards_fails (childRunShard fs op shift now tok) _ ⟨sh, hsh, hshfail⟩]
  refine ⟨hnone, ?_⟩
  rw [processRoute, if_neg (by omega), if_neg (by decide),
    if_pos (by rfl : ("multiprocessing" : String) = "multiprocessing"), hnone]

/-- Witness for C7: five files on four CPUs with the first file unreadable. -/
theorem c7_child_failure_rejects_whole_batch_witness :
    processWithChildProcesses fsBad1 4 files5 "encrypt" 3 0 "t" 0 0 = none
    ∧ processRoute fsBad1 4 files5 "encrypt" "multiprocessing" 3 0 "t" 0 0
      = .serverError "Error processing files" :=
  c7_child_failure_rejects_whole_batch fsBad1 4 files5 "encrypt" 3 0 0 0 "t"
    ⟨⟨"f1.txt", "uploads/p1"⟩, by decide, by decide⟩ (by decide)

/-- Claim C8 (confirmed): an empty batch is answered 400 `'No files
provided'` whatever the filesystem, CPU count or method — the check precedes
the strategy switch, so no executor runs and no shard is created; an unknown
strategy name on a non-empty batch falls through the switch to 400
`'Invalid processing method'`, again without any executor running.  Both
rejections go straight back to the immediate caller. -/
theorem c8_empty_batch_and_invalid_strategy_rejected :
    (∀ (fs : Fs) (cpus : Nat) (op method : String) (shift : Int)
       (now : Nat) (tok : String) (startTime endTime : Nat),
      processRoute fs cpus [] op method shift now tok startTime endTime
        = .badRequest "No files provided")
    ∧ (∀ (fs : Fs) (cpus : Nat) (files : List UploadedFile) (op method : String)
         (shift : Int) (now : Nat) (tok : String) (startTime endTime : Nat),
        files ≠ []
        → method ∉ (["multithreading", "multiprocessing", "sequential"] : List String)
        → processRoute fs cpus files op method shift now tok startTime endTime
            = .badRequest "Invalid processing method") := by
  constructor
  · intro fs cpus op method shift now tok startTime endTime
    rw [processRoute, if_pos (by rfl : ([] : List UploadedFile).length = 0)]
  · intro fs cpus files op method shift now tok startTime endTime hne hmethod
    simp only [List.mem_cons, List.mem_singleton, not_or] at hmethod
    rw [processRoute, if_neg (by simp [List.length_eq_zero, hne]),
      if_neg hmethod.1, if_neg hmethod.2.1, if_neg hmethod.2.2.1]

/-- Witness for C8: the empty batch, and the unknown method `"parallel"`. -/
theorem c8_empty_batch_and_invalid_strategy_rejected_witness :
    processRoute fsAll 1 [] "encrypt" "sequential" 3 0 "t" 0 0
      = .badRequest "No files provided"
    ∧ processRoute fsAll 1 files2 "encrypt" "parallel" 3 0 "t" 0 0
      = .badRequest "Invalid processing method" :=
  ⟨c8_empty_batch_and_invalid_strategy_rejected.1 fsAll 1 "encrypt" "sequential" 3 0 "t" 0 0,
   c8_empty_batch_and_invalid_strategy_rejected.2 fsAll 1 files2 "encrypt" "parallel" 3 0 "t"
     0 0 (by decide) (by decide)⟩

/-- Claim C9 (confirmed): five files each containing `"Hello"`, encrypted
sequentially with shift 3: the outcome has 5 results and the console-error
log is empty (no failures), every written output is `"Khoor"`, and every
reported size is 5. -/
theorem c9_sequential_hello_khoor :
    (processSequentially fsAll files5 "encrypt" 3 0 0 0).outcome.results.length = 5
    ∧ (processSequentially fsAll files5 "encrypt" 3 0 0 0).writes.map Prod.snd
      = [khoor, khoor, khoor, khoor, khoor]
    ∧ (processSequentially fsAll files5 "encrypt" 3 0 0 0).consoleErrors = []
    ∧ (processSequentially fsAll files5 "encrypt" 3 0 0 0).outcome.results.map
        FileResult.size = [5, 5, 5, 5, 5] := by
  decide

/-- Claim C10 (confirmed): the transform maps each code unit to exactly one
code unit and leaves non-letters unchanged, so its output has exactly the
input's length — for every string, shift and direction; consequently in
every sequential run the `size` column of the results (taken from the source
content's length) coincides pairwise with the lengths of the written
outputs. -/
theorem c10_transform_preserves_length :
    (∀ (text : List Nat) (shift : Int) (decrypt : Bool),
      (caesarCipher text shift decrypt).length = text.length)
    ∧ (∀ (fs : Fs) (files : List UploadedFile) (op : String) (shift : Int)
         (now startTime endTime : Nat),
        ((processSequentially fs files op shift now startTime endTime).outcome.results).map
            FileResult.size
          = ((processSequentially fs files op shift now startTime endTime).writes).map
              (fun w => w.2.length)) := by
  refine ⟨caesarCipher_length, ?_⟩
  intro fs files op shift now startTime endTime
  simpa [processSequentially] using seqGo_sizes_eq_write_lengths fs op shift now files

end Ecncrpty
